import Mathlib

/-!
Verification of the workflow execution engine of the agent-builder
repository: the node lifecycle wrapper (`BaseNode.run`), the node factory,
the single-node DAG resolution in `WorkflowViewSet.execute`, the database
executor's placeholder handling, and the concrete node handlers
(agent, filter, conditional).

Python values are shallowly embedded as `PyValue`; dictionaries are
association lists in insertion order, mirroring Python 3.7+ dict semantics.
-/

/-- Shallow embedding of the Python values the engine manipulates.
Floats appear only as opaque literal payloads (`0.95`), represented
exactly as rationals; no float arithmetic occurs in the engine. -/
inductive PyValue where
  | none
  | bool (b : Bool)
  | int (n : Int)
  | float (q : Rat)
  | str (s : String)
  | list (xs : List PyValue)
  | dict (kvs : List (String × PyValue))
deriving Repr

mutual

/-- Structural decidable equality for `PyValue`. -/
def PyValue.beq : PyValue → PyValue → Bool
  | .none, .none => true
  | .bool a, .bool b => a == b
  | .int a, .int b => a == b
  | .float a, .float b => a == b
  | .str a, .str b => a == b
  | .list a, .list b => PyValue.beqList a b
  | .dict a, .dict b => PyValue.beqDict a b
  | _, _ => false

/-- Elementwise equality on lists of `PyValue`. -/
def PyValue.beqList : List PyValue → List PyValue → Bool
  | [], [] => true
  | a :: as', b :: bs' => PyValue.beq a b && PyValue.beqList as' bs'
  | _, _ => false

/-- Elementwise equality on association lists of `PyValue`. -/
def PyValue.beqDict : List (String × PyValue) → List (String × PyValue) → Bool
  | [], [] => true
  | (ka, va) :: as', (kb, vb) :: bs' =>
      ka == kb && PyValue.beq va vb && PyValue.beqDict as' bs'
  | _, _ => false

end

mutual

theorem PyValue.beq_refl : (a : PyValue) → PyValue.beq a a = true
  | .none => rfl
  | .bool b => by simp [PyValue.beq]
  | .int n => by simp [PyValue.beq]
  | .float q => by simp [PyValue.beq]
  | .str s => by simp [PyValue.beq]
  | .list xs => by simp [PyValue.beq, PyValue.beqList_refl xs]
  | .dict kvs => by simp [PyValue.beq, PyValue.beqDict_refl kvs]

theorem PyValue.beqList_refl : (xs : List PyValue) → PyValue.beqList xs xs = true
  | [] => rfl
  | a :: as' => by simp [PyValue.beqList, PyValue.beq_refl a, PyValue.beqList_refl as']

theorem PyValue.beqDict_refl : (kvs : List (String × PyValue)) →
    PyValue.beqDict kvs kvs = true
  | [] => rfl
  | (k, v) :: rest => by
      simp [PyValue.beqDict, PyValue.beq_refl v, PyValue.beqDict_refl rest]

end

mutual

theorem PyValue.eq_of_beq : {a b : PyValue} → PyValue.beq a b = true → a = b
  | .none, .none, _ => rfl
  | .bool a, .bool b, h => by simp [PyValue.beq] at h; simp [h]
  | .int a, .int b, h => by simp [PyValue.beq] at h; simp [h]
  | .float a, .float b, h => by simp [PyValue.beq] at h; simp [h]
  | .str a, .str b, h => by simp [PyValue.beq] at h; simp [h]
  | .list a, .list b, h => by
      simp only [PyValue.beq] at h
      exact congrArg PyValue.list (PyValue.eqList_of_beq h)
  | .dict a, .dict b, h => by
      simp only [PyValue.beq] at h
      exact congrArg PyValue.dict (PyValue.eqDict_of_beq h)

theorem PyValue.eqList_of_beq : {xs ys : List PyValue} →
    PyValue.beqList xs ys = true → xs = ys
  | [], [], _ => rfl
  | a :: as', b :: bs', h => by
      simp only [PyValue.beqList, Bool.and_eq_true] at h
      rw [PyValue.eq_of_beq h.1, PyValue.eqList_of_beq h.2]

theorem PyValue.eqDict_of_beq : {xs ys : List (String × PyValue)} →
    PyValue.beqDict xs ys = true → xs = ys
  | [], [], _ => rfl
  | (ka, va) :: as', (kb, vb) :: bs', h => by
      simp only [PyValue.beqDict, Bool.and_eq_true] at h
      obtain ⟨⟨hk, hv⟩, hrest⟩ := h
      have hk' : ka = kb := by simpa using hk
      rw [hk', PyValue.eq_of_beq hv, PyValue.eqDict_of_beq hrest]

end

instance : DecidableEq PyValue := fun a b =>
  if h : PyValue.beq a b = true then
    Decidable.isTrue (PyValue.eq_of_beq h)
  else
    Decidable.isFalse (fun he => h (he ▸ PyValue.beq_refl a))

/-- Python truthiness (`bool(v)`): `None`, `False`, `0`, `""`, `[]`, `{}`
are falsy, everything else truthy. -/
def PyValue.isTruthy : PyValue → Bool
  | .none => false
  | .bool b => b
  | .int n => n != 0
  | .float q => q != 0
  | .str s => s.length != 0
  | .list xs => !xs.isEmpty
  | .dict kvs => !kvs.isEmpty

/-- Python dict read `d.get(k)`: first binding of `k` (Python dicts have
unique keys; insertion order is preserved). -/
def alistGet? {ν : Type} (m : List (String × ν)) (k : String) : Option ν :=
  match m.find? (fun kv => kv.1 == k) with
  | Option.none => Option.none
  | some kv => some kv.2

/-- Python dict write `d[k] = v`: update in place if the key is present,
append otherwise (insertion-order semantics). -/
def alistSet {ν : Type} (m : List (String × ν)) (k : String) (v : ν) :
    List (String × ν) :=
  if m.any (fun kv => kv.1 == k) then
    m.map (fun kv => if kv.1 == k then (k, v) else kv)
  else
    m ++ [(k, v)]

/-- Python dict write keyed by integers (used for the durable-id →
visual-id correlation map). -/
def alistSetInt {ν : Type} (m : List (Int × ν)) (k : Int) (v : ν) :
    List (Int × ν) :=
  if m.any (fun kv => kv.1 == k) then
    m.map (fun kv => if kv.1 == k then (k, v) else kv)
  else
    m ++ [(k, v)]

/-- Python dict read keyed by integers. -/
def alistGetInt? {ν : Type} (m : List (Int × ν)) (k : Int) : Option ν :=
  match m.find? (fun kv => kv.1 == k) with
  | Option.none => Option.none
  | some kv => some kv.2

/-- `str(v)` for the scalar values the engine substitutes into queries. -/
def pyStr : PyValue → String
  | .none => "None"
  | .bool b => if b then "True" else "False"
  | .int n => toString n
  | .float q => toString q
  | .str s => s
  | .list _ => "[...]"
  | .dict _ => "{...}"

/-! ## Database Executor: placeholder substitution
Embedding of `DatabaseExecutor.replace_placeholders` and
`DatabaseExecutor.validate_placeholders`
(src/workflows/execution/node_handlers/database_executor.py). -/

/-- One step of Python `str.replace`: does the pattern match at the head? -/
def matchAt (pat s : List Char) : Bool :=
  s.take pat.length == pat

/-- Python `str.replace(pat, rep)` on character lists: left-to-right,
non-overlapping replacement of every occurrence. -/
def replaceFrom (pat rep : List Char) : List Char → List Char
  | [] => []
  | c :: rest =>
    if h : pat.length ≠ 0 ∧ matchAt pat (c :: rest) then
      rep ++ replaceFrom pat rep ((c :: rest).drop pat.length)
    else
      c :: replaceFrom pat rep rest
termination_by s => s.length
decreasing_by
  · simp only [List.length_drop, List.length_cons]
    omega
  · simp only [List.length_cons]
    omega

/-- The literal token text `{{key}}` built by
`placeholder_marker = f"{{{{{key}}}}}"` in the source. -/
def marker (key : String) : String := "\x7b\x7b" ++ key ++ "\x7d\x7d"

/-- `DatabaseExecutor.replace_placeholders`: fold over the placeholder
entries (dict insertion order), replacing every occurrence of `{{key}}`
with `str(value)`. -/
def replace_placeholders (query : String) (placeholders : List (String × PyValue)) :
    String :=
  placeholders.foldl
    (fun acc kv => ⟨replaceFrom (marker kv.1).data (pyStr kv.2).data acc.data⟩)
    query

/-- Python regex `\w`: word character. -/
def isWordChar (c : Char) : Bool := c.isAlphanum || c == '_'

/-- `re.findall(r'\{\{(\w+)\}\}', query)`: scan left to right; at each
position try to match `{{`, a nonempty word-character run, `}}`; on
success emit the run and resume after the match, otherwise advance one
character. -/
def findTokens : List Char → List String
  | [] => []
  | [_] => []
  | c1 :: c2 :: rest2 =>
    if c1 == '{' && c2 == '{' then
      let word := rest2.takeWhile isWordChar
      if word.length ≠ 0 ∧ matchAt ['}', '}'] (rest2.drop word.length) then
        ⟨word⟩ :: findTokens (rest2.drop (word.length + 2))
      else
        findTokens (c2 :: rest2)
    else
      findTokens (c2 :: rest2)
termination_by s => s.length
decreasing_by
  · simp only [List.length_drop, List.length_cons]
    omega
  · simp only [List.length_cons]
    omega
  · simp only [List.length_cons]
    omega

/-- `DatabaseExecutor.validate_placeholders`: the `{{...}}` tokens found in
the query whose names are not keys of the placeholder dict. -/
def validate_placeholders (query : String) (placeholders : List (String × PyValue)) :
    List String :=
  (findTokens query.data).filter (fun p => !(placeholders.any (fun kv => kv.1 == p)))

/-! ## Generic facts about left-to-right textual replacement -/

theorem replaceFrom_nil (pat rep : List Char) : replaceFrom pat rep [] = [] := by
  rw [replaceFrom]

theorem replaceFrom_cons_pos (pat rep : List Char) (c : Char) (rest : List Char)
    (h1 : pat.length ≠ 0) (h2 : matchAt pat (c :: rest) = true) :
    replaceFrom pat rep (c :: rest) =
      rep ++ replaceFrom pat rep ((c :: rest).drop pat.length) := by
  rw [replaceFrom]
  simp [h1, h2]

theorem replaceFrom_cons_neg (pat rep : List Char) (c : Char) (rest : List Char)
    (h : ¬(pat.length ≠ 0 ∧ matchAt pat (c :: rest) = true)) :
    replaceFrom pat rep (c :: rest) = c :: replaceFrom pat rep rest := by
  rw [replaceFrom]
  simp only [dif_neg h]

/-- If the pattern matches nowhere in `s`, replacement leaves `s` unchanged. -/
theorem replaceFrom_of_clean (pat rep : List Char) : (s : List Char) →
    (∀ i, i < s.length → matchAt pat (s.drop i) = false) →
    replaceFrom pat rep s = s
  | [], _ => replaceFrom_nil pat rep
  | c :: rest, H => by
      have h0 := H 0 (Nat.succ_pos _)
      simp only [List.drop_zero] at h0
      rw [replaceFrom_cons_neg pat rep c rest (by simp [h0]),
        replaceFrom_of_clean pat rep rest (fun i hi => by
          have := H (i + 1) (by simpa using hi)
          simpa using this)]

/-- Replacement skips over a clean leading block: if no match starts inside
`a` (with continuation `s`), replacement passes `a` through untouched. -/
theorem replaceFrom_append_clean (pat rep : List Char) : (a s : List Char) →
    (∀ i, i < a.length → matchAt pat ((a ++ s).drop i) = false) →
    replaceFrom pat rep (a ++ s) = a ++ replaceFrom pat rep s
  | [], s, _ => by simp
  | c :: a', s, H => by
      have h0 := H 0 (Nat.succ_pos _)
      simp only [List.drop_zero, List.cons_append] at h0
      rw [List.cons_append, replaceFrom_cons_neg pat rep c (a' ++ s) (by simp [h0]),
        replaceFrom_append_clean pat rep a' s (fun i hi => by
          have := H (i + 1) (by simpa using hi)
          simpa using this)]
      simp

/-- Replacement fires on a match at the head. -/
theorem replaceFrom_head_match (pat rep s : List Char) (hp : pat ≠ []) :
    replaceFrom pat rep (pat ++ s) = rep ++ replaceFrom pat rep s := by
  obtain ⟨p, pt, rfl⟩ : ∃ p pt, pat = p :: pt := by
    cases pat with
    | nil => exact absurd rfl hp
    | cons p pt => exact ⟨p, pt, rfl⟩
  rw [List.cons_append, replaceFrom_cons_pos _ rep p (pt ++ s) (by simp)
    (by simp only [matchAt, ← List.cons_append, List.take_left]; exact beq_self_eq_true _)]
  congr 1
  rw [← List.cons_append, List.drop_left]

/-- `sep`-interleaved concatenation of segments (the way a query decomposes
around the occurrences of one `{{key}}` token). -/
def joinSegs (sep : List Char) : List (List Char) → List Char
  | [] => []
  | [s] => s
  | s :: s2 :: rest => s ++ sep ++ joinSegs sep (s2 :: rest)

/-- The segments are clean for `pat`: no match of `pat` starts inside any
segment (boundary-spanning matches included); in particular `pat` occurs in
`joinSegs pat segs` exactly at the separator positions. -/
def segsOk (pat : List Char) : List (List Char) → Bool
  | [] => true
  | [s] => decide (∀ i, i < s.length → matchAt pat (s.drop i) = false)
  | s :: s2 :: rest =>
      decide (∀ i, i < s.length →
          matchAt pat ((s ++ (pat ++ joinSegs pat (s2 :: rest))).drop i) = false)
        && segsOk pat (s2 :: rest)

/-- Replacing `pat` by `rep` in a query that decomposes into clean segments
separated by `pat` occurrences replaces exactly those occurrences. -/
theorem replaceFrom_joinSegs (pat rep : List Char) (hp : pat ≠ []) :
    (segs : List (List Char)) → segsOk pat segs = true →
    replaceFrom pat rep (joinSegs pat segs) = joinSegs rep segs
  | [], _ => replaceFrom_nil pat rep
  | [s], H => by
      simp only [segsOk, decide_eq_true_eq] at H
      simpa [joinSegs] using replaceFrom_of_clean pat rep s H
  | s :: s2 :: rest, H => by
      simp only [segsOk, Bool.and_eq_true, decide_eq_true_eq] at H
      have step1 := replaceFrom_append_clean pat rep s (pat ++ joinSegs pat (s2 :: rest)) H.1
      have step2 := replaceFrom_head_match pat rep (joinSegs pat (s2 :: rest)) hp
      have step3 := replaceFrom_joinSegs pat rep hp (s2 :: rest) H.2
      simp only [joinSegs, List.append_assoc, step1, step2, step3]

theorem marker_data (key : String) :
    (marker key).data = '{' :: '{' :: (key.data ++ ['}', '}']) := by
  simp [marker, String.data_append]

theorem marker_data_ne (key : String) : (marker key).data ≠ [] := by
  rw [marker_data]; simp

/-- C4: placeholder handling in the database executor is pure textual
substitution. For every query decomposing into clean segments around the
occurrences of `{{key}}`, `replace_placeholders` replaces every occurrence
with `str(value)`; `validate_placeholders` returns exactly the `{{...}}`
token names of the query that have no key in the placeholder map; on the
spec's examples, a query containing `{{status}}` with `status ↦ "active"`
yields the query with `active` in place of the token, and a query with
`{{a}}` and `{{b}}` plus placeholders `{a: 1}` yields `["b"]`. -/
theorem C4_placeholder_substitution
    (key : String) (v : PyValue) (segs : List (List Char))
    (hsegs : segsOk (marker key).data segs = true)
    (query : String) (ph : List (String × PyValue)) (p : String) :
    (replace_placeholders ⟨joinSegs (marker key).data segs⟩ [(key, v)] =
       ⟨joinSegs (pyStr v).data segs⟩)
  ∧ (p ∈ validate_placeholders query ph ↔
       p ∈ findTokens query.data ∧ ∀ kv ∈ ph, kv.1 ≠ p)
  ∧ validate_placeholders "SELECT * FROM t WHERE x = \x7b\x7ba\x7d\x7d AND y = \x7b\x7bb\x7d\x7d"
      [("a", PyValue.int 1)] = ["b"]
  ∧ replace_placeholders "SELECT * FROM users WHERE status = \x7b\x7bstatus\x7d\x7d"
      [("status", PyValue.str "active")] = "SELECT * FROM users WHERE status = active" := by
  refine ⟨?_, ?_, ?_, ?_⟩
  · show String.mk (replaceFrom (marker key).data (pyStr v).data
      (joinSegs (marker key).data segs)) = _
    rw [replaceFrom_joinSegs _ _ (marker_data_ne key) segs hsegs]
  · simp [validate_placeholders, List.mem_filter, List.any_eq_true]
  · simp [validate_placeholders, findTokens, matchAt, isWordChar]
  · simp [replace_placeholders, replaceFrom, marker, pyStr, matchAt]

/-- Witness for C4 at a concrete query: the clean-segment hypothesis holds
for the spec's own example and the substitution equation follows. -/
theorem C4_placeholder_substitution_witness :
    replace_placeholders
        ⟨joinSegs (marker "status").data ["SELECT * FROM users WHERE status = ".data, []]⟩
        [("status", PyValue.str "active")]
      = ⟨joinSegs "active".data ["SELECT * FROM users WHERE status = ".data, []]⟩ :=
  (C4_placeholder_substitution "status" (PyValue.str "active")
      ["SELECT * FROM users WHERE status = ".data, []] (by decide)
      "q" [] "p").1

/-! ## Node Contract: `BaseNode` lifecycle
Embedding of `BaseNode.__init__`, `pre_execute`, `post_execute`, `run` and
`get_metadata` (src/workflows/execution/node_handlers/base.py).
Timestamps are integers supplied as parameters standing for the values of
`datetime.now()` at the two observation points; `validate` and `execute`
are the subclass hooks, passed as functions, raising modelled as
`Except.error`. -/

/-- The mutable execution state a `BaseNode` carries
(`status`, `input_data`, `output_data`, timing and error fields). -/
structure NodeState where
  status : String
  input_data : PyValue
  output_data : PyValue
  started_at : Option Int
  completed_at : Option Int
  execution_time : Option Int
  error_message : Option String
deriving Repr, DecidableEq

/-- The field values set by `BaseNode.__init__`. -/
def initState : NodeState :=
  { status := "pending", input_data := PyValue.none, output_data := PyValue.none,
    started_at := Option.none, completed_at := Option.none,
    execution_time := Option.none, error_message := Option.none }

/-- `BaseNode.pre_execute`: store the input, set status to running, record
the start time. -/
def preExecute (input : PyValue) (tNow : Int) (s : NodeState) : NodeState :=
  { s with input_data := input, status := "running", started_at := some tNow }

/-- `BaseNode.post_execute`: mark completed, record the completion time,
and derive `execution_time` when a start time exists. -/
def postExecute (tNow : Int) (s : NodeState) : NodeState :=
  let s1 := { s with status := "completed", completed_at := some tNow }
  match s1.started_at with
  | some t0 => { s1 with execution_time := some (tNow - t0) }
  | Option.none => s1

/-- The `except` block of `BaseNode.run`: mark failed, store the message,
record the completion time, derive `execution_time` when a start time
exists. -/
def failUpdate (msg : String) (tNow : Int) (s : NodeState) : NodeState :=
  let s1 := { s with status := "failed", error_message := some msg,
                     completed_at := some tNow }
  match s1.started_at with
  | some t0 => { s1 with execution_time := some (tNow - t0) }
  | Option.none => s1

/-- `BaseNode.run`: validate; on success run `pre_execute`, `execute`,
`post_execute`; any exception from `validate` or `execute` is caught,
the failure bookkeeping applied, and the exception re-raised (returned as
`Except.error`). `tStart` is the clock at `pre_execute`, `tEnd` the clock
at `post_execute`/the handler. -/
def runNode (validate : Except String Bool) (execute : PyValue → Except String PyValue)
    (input : PyValue) (tStart tEnd : Int) (s : NodeState) :
    NodeState × Except String PyValue :=
  match validate with
  | .error e => (failUpdate e tEnd s, .error e)
  | .ok _ =>
    let s1 := preExecute input tStart s
    match execute input with
    | .ok out => (postExecute tEnd { s1 with output_data := out }, .ok out)
    | .error e => (failUpdate e tEnd s1, .error e)

/-- Python `len(v)` for list/dict/str values, `None` otherwise — the
`input_size`/`output_size` computation of `get_metadata`. -/
def pySize : PyValue → PyValue
  | .list xs => .int xs.length
  | .dict kvs => .int kvs.length
  | .str s => .int s.length
  | _ => .none

/-- An optional timestamp rendered into metadata
(`t.isoformat() if t else None`, the rendering abstracted to `toString`). -/
def optTime : Option Int → PyValue
  | some t => .str (toString t)
  | Option.none => .none

/-- `BaseNode.get_metadata`: the execution-record dict. -/
def get_metadata (node_id : Int) (node_type : String) (position : Int)
    (s : NodeState) : List (String × PyValue) :=
  [("node_id", .int node_id),
   ("node_type", .str node_type),
   ("position", .int position),
   ("status", .str s.status),
   ("started_at", optTime s.started_at),
   ("completed_at", optTime s.completed_at),
   ("execution_time", match s.execution_time with
                      | some d => .int d
                      | Option.none => .none),
   ("error_message", match s.error_message with
                     | some m => .str m
                     | Option.none => .none),
   ("input_size", pySize s.input_data),
   ("output_size", pySize s.output_data)]

/-- C2: `run(input)` first validates; a validation failure marks the node
failed with the validation message, propagates the error and never calls
`execute`; a validation success enters the running state with `started_at`
recorded and then runs `execute`; on success the node is completed with
`completed_at` and `execution_time = completed_at − started_at`; an
`execute` exception is caught, bookkept (failed status, message,
`completed_at`) and re-raised, never swallowed. -/
theorem C2_run_validates_then_executes
    (validate : Except String Bool) (execute : PyValue → Except String PyValue)
    (input : PyValue) (tStart tEnd : Int) :
    (∀ e, validate = .error e →
      (runNode validate execute input tStart tEnd initState).1.status = "failed"
    ∧ (runNode validate execute input tStart tEnd initState).1.error_message = some e
    ∧ (runNode validate execute input tStart tEnd initState).2 = .error e
    ∧ ∀ ex2, runNode validate execute input tStart tEnd initState
        = runNode validate ex2 input tStart tEnd initState)
  ∧ (∀ b, validate = .ok b →
      (preExecute input tStart initState).status = "running"
    ∧ (preExecute input tStart initState).started_at = some tStart
    ∧ runNode validate execute input tStart tEnd initState
        = (match execute input with
           | .ok out =>
             (postExecute tEnd { preExecute input tStart initState with output_data := out },
              .ok out)
           | .error e => (failUpdate e tEnd (preExecute input tStart initState), .error e)))
  ∧ (∀ b out, validate = .ok b → execute input = .ok out →
      (runNode validate execute input tStart tEnd initState).1.status = "completed"
    ∧ (runNode validate execute input tStart tEnd initState).1.started_at = some tStart
    ∧ (runNode validate execute input tStart tEnd initState).1.completed_at = some tEnd
    ∧ (runNode validate execute input tStart tEnd initState).1.execution_time
        = some (tEnd - tStart)
    ∧ (runNode validate execute input tStart tEnd initState).2 = .ok out)
  ∧ (∀ b e, validate = .ok b → execute input = .error e →
      (runNode validate execute input tStart tEnd initState).1.status = "failed"
    ∧ (runNode validate execute input tStart tEnd initState).1.error_message = some e
    ∧ (runNode validate execute input tStart tEnd initState).1.completed_at = some tEnd
    ∧ (runNode validate execute input tStart tEnd initState).2 = .error e) := by
  refine ⟨?_, ?_, ?_, ?_⟩
  · rintro e rfl
    exact ⟨rfl, rfl, rfl, fun ex2 => rfl⟩
  · rintro b rfl
    exact ⟨rfl, rfl, rfl⟩
  · rintro b out rfl hex
    simp [runNode, hex, preExecute, postExecute, initState]
  · rintro b e rfl hex
    simp [runNode, hex, preExecute, failUpdate, initState]

/-- Witness for C2 at concrete hooks and clock values: a successful run
completes with the derived duration, and a failed validation propagates. -/
theorem C2_run_validates_then_executes_witness :
    (runNode (.ok true) (fun v => .ok v) (.int 5) 3 7 initState).1.status = "completed"
  ∧ (runNode (.ok true) (fun v => .ok v) (.int 5) 3 7 initState).1.execution_time = some 4
  ∧ (runNode (.error "credential_id is required") (fun v => .ok v) (.int 5) 3 7 initState).2
      = .error "credential_id is required" := by
  refine ⟨?_, ?_, ?_⟩
  · exact ((C2_run_validates_then_executes (.ok true) (fun v => .ok v)
      (.int 5) 3 7).2.2.1 true (.int 5) rfl rfl).1
  · exact ((C2_run_validates_then_executes (.ok true) (fun v => .ok v)
      (.int 5) 3 7).2.2.1 true (.int 5) rfl rfl).2.2.2.1
  · exact ((C2_run_validates_then_executes (.error "credential_id is required")
      (fun v => .ok v) (.int 5) 3 7).1 "credential_id is required" rfl).2.2.1

/-- C10: when `validate` raises inside `run`, the node ends failed with
`completed_at` set while `started_at`, `execution_time`, `input_data` and
`output_data` keep their initial `None` values (`pre_execute` never ran),
so `get_metadata` reports a `completed_at` with no `started_at`, a null
`execution_time` and null input/output sizes. -/
theorem C10_validation_failure_frame
    (e : String) (execute : PyValue → Except String PyValue)
    (input : PyValue) (tStart tEnd : Int) (nid : Int) (nt : String) (pos : Int) :
    (runNode (.error e) execute input tStart tEnd initState).1.status = "failed"
  ∧ (runNode (.error e) execute input tStart tEnd initState).1.completed_at = some tEnd
  ∧ (runNode (.error e) execute input tStart tEnd initState).1.started_at = Option.none
  ∧ (runNode (.error e) execute input tStart tEnd initState).1.execution_time = Option.none
  ∧ (runNode (.error e) execute input tStart tEnd initState).1.input_data = PyValue.none
  ∧ (runNode (.error e) execute input tStart tEnd initState).1.output_data = PyValue.none
  ∧ alistGet? (get_metadata nid nt pos (runNode (.error e) execute input tStart tEnd initState).1)
      "completed_at" = some (.str (toString tEnd))
  ∧ alistGet? (get_metadata nid nt pos (runNode (.error e) execute input tStart tEnd initState).1)
      "started_at" = some PyValue.none
  ∧ alistGet? (get_metadata nid nt pos (runNode (.error e) execute input tStart tEnd initState).1)
      "execution_time" = some PyValue.none
  ∧ alistGet? (get_metadata nid nt pos (runNode (.error e) execute input tStart tEnd initState).1)
      "input_size" = some PyValue.none
  ∧ alistGet? (get_metadata nid nt pos (runNode (.error e) execute input tStart tEnd initState).1)
      "output_size" = some PyValue.none := by
  refine ⟨rfl, rfl, rfl, rfl, rfl, rfl, ?_, ?_, ?_, ?_, ?_⟩ <;>
    simp [runNode, failUpdate, initState, get_metadata, alistGet?, optTime, pySize, List.find?]

/-! ## Agent node
Embedding of `AgentNode.execute`
(src/workflows/execution/node_handlers/agent.py): input-mapping, batching
by `batch_size`, mocked per-record agent call, order-preserving merge. -/

/-- The configuration fields `AgentNode.execute` reads. `batch_size` and
`timeout` are the integer values after the source's string-to-int
coercion; `None`, `0` and `""` all fall through to the default
(`elif not batch_size: batch_size = 100`), captured by `Option.none` /
`some 0`. `input_mapping` is the `input_mapping` dict's items in
insertion order. -/
structure AgentConfig where
  batch_size : Option Nat
  timeout : Option Nat
  input_mapping : List (String × String)

/-- The effective batch size: `config.get('batch_size', 100)` with falsy
values replaced by 100. Always positive. -/
def effBatchSize : Option Nat → Nat
  | Option.none => 100
  | some 0 => 100
  | some (n + 1) => n + 1

theorem effBatchSize_pos (o : Option Nat) : 1 ≤ effBatchSize o := by
  match o with
  | Option.none => exact Nat.le_refl _ |>.trans (by norm_num [effBatchSize])
  | some 0 => norm_num [effBatchSize]
  | some (n + 1) => simp [effBatchSize]

/-- `column_ref.split('.')[-1] if '.' in column_ref else column_ref`. -/
def columnOf (ref : String) : String :=
  if ref.data.contains '.' then (ref.splitOn ".").getLastD ref else ref

/-- Python substring test (`needle in haystack` on strings). -/
def hasInfix (pat : List Char) : List Char → Bool
  | [] => pat.isEmpty
  | c :: rest => matchAt pat (c :: rest) || hasInfix pat rest

/-- Python `in` on a container value; a `TypeError` for non-iterables. -/
def pyIn (needle : String) (container : PyValue) : Except String Bool :=
  match container with
  | .dict kvs => .ok (kvs.any (fun kv => kv.1 == needle))
  | .str s => .ok (hasInfix needle.data s.data)
  | .list xs => .ok (xs.contains (.str needle))
  | _ => .error "TypeError: argument is not iterable"

/-- Python `container[key]` with a string key. -/
def pyGetItem (container : PyValue) (k : String) : Except String PyValue :=
  match container with
  | .dict kvs =>
    match alistGet? kvs k with
    | some v => .ok v
    | Option.none => .error "KeyError"
  | _ => .error "TypeError: not subscriptable with str"

/-- The inner loop of `AgentNode.execute` building `agent_input` for one
record: for each `(placeholder, column_ref)`, take `record[column]` when
the column is in the record, else `None`. -/
def mapAgentInput (mapping : List (String × String)) (record : PyValue) :
    Except String (List (String × PyValue)) :=
  mapping.foldlM
    (fun acc pr => do
      let column := columnOf pr.2
      let m ← pyIn column record
      let v ← if m then pyGetItem record column else pure PyValue.none
      pure (alistSet acc pr.1 v))
    []

/-- The outer mapping loop: pair every record with its `agent_input`. -/
def mapRecords (mapping : List (String × String)) :
    List PyValue → Except String (List (PyValue × List (String × PyValue)))
  | [] => .ok []
  | r :: rest => do
      let ai ← mapAgentInput mapping r
      let tail ← mapRecords mapping rest
      pure ((r, ai) :: tail)

/-- Contiguous slices of size `bpred + 1`
(`for i in range(0, len(xs), batch_size): xs[i:i+batch_size]`). -/
def chunksPos {α : Type} (bpred : Nat) : List α → List (List α)
  | [] => []
  | x :: xs => (x :: xs.take bpred) :: chunksPos bpred (xs.drop bpred)
termination_by l => l.length
decreasing_by
  simp only [List.length_drop, List.length_cons]
  omega

/-- The batch partition of `AgentNode.execute` for a positive batch size
`b` (the effective batch size is always positive). -/
def agentBatches {α : Type} (b : Nat) (l : List α) : List (List α) :=
  chunksPos (b - 1) l

/-- The keys the mocked agent call adds to each record. -/
def agentKeys : List String :=
  ["agent_result", "agent_confidence", "agent_processed_at", "agent_input_used"]

/-- The dict literal `{**original_record, 'agent_result': …,
'agent_confidence': 0.95, 'agent_processed_at': now, 'agent_input_used':
agent_input}` as an association list. -/
def agentMockAlist (now : String) (orig : List (String × PyValue))
    (ai : List (String × PyValue)) : List (String × PyValue) :=
  alistSet
    (alistSet
      (alistSet
        (alistSet orig "agent_result" (.str "Mock classification result"))
        "agent_confidence" (.float (95 / 100)))
      "agent_processed_at" (.str now))
    "agent_input_used" (.dict ai)

/-- One mocked agent call (`mock_result` in the source); spreading a
non-dict record raises a `TypeError`. -/
def agentItemResult (now : String) (item : PyValue × List (String × PyValue)) :
    Except String PyValue :=
  match item.1 with
  | .dict kvs => .ok (.dict (agentMockAlist now kvs item.2))
  | _ => .error "TypeError: mapping spread of non-dict"

/-- The per-batch inner loop collecting `batch_results`. -/
def processItems (now : String) :
    List (PyValue × List (String × PyValue)) → Except String (List PyValue)
  | [] => .ok []
  | item :: rest => do
      let r ← agentItemResult now item
      let tail ← processItems now rest
      pure (r :: tail)

/-- The batch loop extending `all_results` batch by batch. -/
def processBatches (now : String) :
    List (List (PyValue × List (String × PyValue))) → Except String (List PyValue)
  | [] => .ok []
  | batch :: rest => do
      let br ← processItems now batch
      let tail ← processBatches now rest
      pure (br ++ tail)

/-- `AgentNode.execute`: falsy input returns `[]`; non-list input raises;
otherwise map, batch and process. `now` stands for
`datetime.now().isoformat()` in the mocked call. -/
def agentExecute (cfg : AgentConfig) (now : String) (input : PyValue) :
    Except String (List PyValue) :=
  if !input.isTruthy then .ok []
  else
    match input with
    | .list xs => do
        let mapped ← mapRecords cfg.input_mapping xs
        processBatches now (agentBatches (effBatchSize cfg.batch_size) mapped)
    | _ => .error "Agent node expects input_data to be a list of records"

theorem chunksPos_flatten {α : Type} (b : Nat) : (l : List α) →
    (chunksPos b l).flatten = l
  | [] => by rw [chunksPos]; rfl
  | x :: xs => by
      rw [chunksPos]
      simp only [List.flatten_cons, chunksPos_flatten b (xs.drop b)]
      simp [List.take_append_drop]
termination_by l => l.length
decreasing_by
  simp only [List.length_drop, List.length_cons]
  omega

theorem sub_add_div_self (n b : Nat) : ((n - b) + b) / (b + 1) = n / (b + 1) := by
  rcases le_or_lt b n with h | h
  · rw [Nat.sub_add_cancel h]
  · rw [Nat.sub_eq_zero_of_le (Nat.le_of_lt h), Nat.zero_add,
      Nat.div_eq_of_lt (Nat.lt_succ_self b), Nat.div_eq_of_lt (Nat.lt_succ_of_lt h)]

theorem chunksPos_length {α : Type} (b : Nat) : (l : List α) →
    (chunksPos b l).length = (l.length + b) / (b + 1)
  | [] => by rw [chunksPos]; simp [Nat.div_eq_of_lt]
  | x :: xs => by
      rw [chunksPos]
      simp only [List.length_cons, chunksPos_length b (xs.drop b), List.length_drop]
      rw [sub_add_div_self]
      have heq : xs.length + 1 + b = xs.length + (b + 1) := by omega
      rw [heq, Nat.add_div_right _ (Nat.succ_pos b)]
termination_by l => l.length
decreasing_by
  simp only [List.length_drop, List.length_cons]
  omega

theorem chunksPos_getD_length {α : Type} (b : Nat) : (l : List α) → (i : Nat) →
    i + 1 < (chunksPos b l).length →
    ((chunksPos b l).getD i []).length = b + 1
  | [], i, h => by rw [chunksPos] at h; simp at h
  | x :: xs, 0, h => by
      rw [chunksPos] at h ⊢
      simp only [List.length_cons] at h
      have hb : b ≤ xs.length := by
        by_contra hb
        push_neg at hb
        rw [List.drop_eq_nil_of_le (Nat.le_of_lt hb), chunksPos] at h
        simp at h
      simp [List.length_take, Nat.min_eq_left hb]
  | x :: xs, i + 1, h => by
      rw [chunksPos] at h ⊢
      simp only [List.length_cons, Nat.add_lt_add_iff_right] at h
      simpa using chunksPos_getD_length b (xs.drop b) i h
termination_by l => l.length
decreasing_by
  simp only [List.length_drop, List.length_cons]
  omega

theorem chunksPos_mem {α : Type} (b : Nat) : (l : List α) → (c : List α) →
    c ∈ chunksPos b l → c ≠ [] ∧ c.length ≤ b + 1
  | [], c, h => by rw [chunksPos] at h; simp at h
  | x :: xs, c, h => by
      rw [chunksPos] at h
      rcases List.mem_cons.mp h with h1 | h2
      · subst h1
        refine ⟨by simp, ?_⟩
        simp only [List.length_cons, List.length_take]
        omega
      · exact chunksPos_mem b (xs.drop b) c h2
termination_by l => l.length
decreasing_by
  simp only [List.length_drop, List.length_cons]
  omega

/-- The pure value of one `agent_input` when the record is a dict: each
mapping entry resolves its (prefix-stripped) column in the record,
defaulting to `None`. -/
def agentInputOf (mapping : List (String × String)) (kvs : List (String × PyValue)) :
    List (String × PyValue) :=
  mapping.foldl
    (fun acc pr => alistSet acc pr.1 ((alistGet? kvs (columnOf pr.2)).getD PyValue.none))
    []

theorem agent_map_step (kvs acc : List (String × PyValue)) (pr : String × String) :
    (do
      let column := columnOf pr.2
      let m ← pyIn column (PyValue.dict kvs)
      let v ← if m then pyGetItem (PyValue.dict kvs) column else pure PyValue.none
      pure (alistSet acc pr.1 v) : Except String (List (String × PyValue)))
      = .ok (alistSet acc pr.1 ((alistGet? kvs (columnOf pr.2)).getD PyValue.none)) := by
  simp only [pyIn, pyGetItem, alistGet?]
  cases hf : kvs.find? (fun kv => kv.1 == columnOf pr.2) with
  | none =>
      have hany : kvs.any (fun kv => kv.1 == columnOf pr.2) = false := by
        rw [List.any_eq_false]
        intro x hx
        simpa using List.find?_eq_none.mp hf x hx
      simp [hany, hf]
      rfl
  | some kv =>
      have hp : (kv.1 == columnOf pr.2) = true := by
        have := List.find?_some hf
        simpa using this
      have hany : kvs.any (fun kv => kv.1 == columnOf pr.2) = true := by
        rw [List.any_eq_true]
        exact ⟨kv, List.mem_of_find?_eq_some hf, hp⟩
      simp [hany, hf]
      rfl

theorem mapAgentInput_go (kvs : List (String × PyValue)) :
    (mapping : List (String × String)) → (acc : List (String × PyValue)) →
    (mapping.foldlM
      (fun acc pr => do
        let column := columnOf pr.2
        let m ← pyIn column (PyValue.dict kvs)
        let v ← if m then pyGetItem (PyValue.dict kvs) column else pure PyValue.none
        pure (alistSet acc pr.1 v))
      acc : Except String (List (String × PyValue)))
      = .ok (mapping.foldl
          (fun acc pr =>
            alistSet acc pr.1 ((alistGet? kvs (columnOf pr.2)).getD PyValue.none))
          acc)
  | [], acc => rfl
  | pr :: rest, acc => by
      rw [List.foldlM_cons, List.foldl_cons]
      rw [agent_map_step kvs acc pr]
      rw [show ∀ (x : List (String × PyValue))
            (f : List (String × PyValue) → Except String (List (String × PyValue))),
            Except.ok x >>= f = f x from fun x f => rfl]
      exact mapAgentInput_go kvs rest _

theorem mapAgentInput_dict (mapping : List (String × String))
    (kvs : List (String × PyValue)) :
    mapAgentInput mapping (PyValue.dict kvs) = .ok (agentInputOf mapping kvs) :=
  mapAgentInput_go kvs mapping []

theorem mapRecords_dicts (mapping : List (String × String)) :
    (records : List (List (String × PyValue))) →
    mapRecords mapping (records.map PyValue.dict)
      = .ok (records.map (fun r => (PyValue.dict r, agentInputOf mapping r)))
  | [] => rfl
  | r :: rest => by
      simp only [List.map_cons, mapRecords]
      rw [mapAgentInput_dict, mapRecords_dicts mapping rest]
      rfl

/-- The pure value of one mocked agent call on a mapped item whose
original record is a dict. -/
def agentMockOf (now : String) (item : PyValue × List (String × PyValue)) : PyValue :=
  match item.1 with
  | .dict kvs => .dict (agentMockAlist now kvs item.2)
  | _ => PyValue.none

theorem processItems_dicts (now : String) :
    (items : List (PyValue × List (String × PyValue))) →
    (∀ it ∈ items, ∃ kvs, it.1 = PyValue.dict kvs) →
    processItems now items = .ok (items.map (agentMockOf now))
  | [], _ => rfl
  | item :: rest, H => by
      obtain ⟨kvs, hkvs⟩ := H item (List.mem_cons_self item rest)
      simp only [processItems, List.map_cons]
      rw [show agentItemResult now item = .ok (agentMockOf now item) by
        simp [agentItemResult, agentMockOf, hkvs]]
      rw [processItems_dicts now rest (fun it hit => H it (List.mem_cons_of_mem _ hit))]
      rfl

theorem processBatches_dicts (now : String) :
    (bs : List (List (PyValue × List (String × PyValue)))) →
    (∀ it ∈ bs.flatten, ∃ kvs, it.1 = PyValue.dict kvs) →
    processBatches now bs = .ok (bs.flatten.map (agentMockOf now))
  | [], _ => rfl
  | batch :: rest, H => by
      simp only [processBatches, List.flatten_cons, List.map_append]
      rw [processItems_dicts now batch
        (fun it hit => H it (by
          rw [List.flatten_cons]
          exact List.mem_append.mpr (Or.inl hit)))]
      rw [processBatches_dicts now rest
        (fun it hit => H it (by
          rw [List.flatten_cons]
          exact List.mem_append.mpr (Or.inr hit)))]
      rfl

/-- `AgentNode.execute` on a list of dict records is exactly an
order-preserving map of the mocked agent call over the records. -/
theorem agentExecute_dicts (cfg : AgentConfig) (now : String)
    (records : List (List (String × PyValue))) :
    agentExecute cfg now (.list (records.map PyValue.dict))
      = .ok (records.map (fun r =>
          PyValue.dict (agentMockAlist now r (agentInputOf cfg.input_mapping r)))) := by
  cases records with
  | nil => rfl
  | cons r rs =>
      have htr : (PyValue.list ((r :: rs).map PyValue.dict)).isTruthy = true := by
        simp [PyValue.isTruthy]
      simp only [agentExecute, htr, Bool.not_true, Bool.false_eq_true, if_false]
      rw [mapRecords_dicts]
      have hflat := chunksPos_flatten (effBatchSize cfg.batch_size - 1)
        ((r :: rs).map (fun r => (PyValue.dict r, agentInputOf cfg.input_mapping r)))
      have hall : ∀ it ∈ (agentBatches (effBatchSize cfg.batch_size)
          ((r :: rs).map (fun r => (PyValue.dict r, agentInputOf cfg.input_mapping r)))).flatten,
          ∃ kvs, it.1 = PyValue.dict kvs := by
        intro it hit
        rw [agentBatches, hflat] at hit
        obtain ⟨a, _, ha⟩ := List.mem_map.mp hit
        exact ⟨a, by rw [← ha]⟩
      show (Except.ok _ >>= _) = _
      rw [show ∀ (x : List (PyValue × List (String × PyValue)))
            (f : List (PyValue × List (String × PyValue)) → Except String (List PyValue)),
            Except.ok x >>= f = f x from fun x f => rfl]
      rw [processBatches_dicts now _ hall, agentBatches, hflat]
      simp [agentMockOf]

theorem alistGet?_alistSet_ne {ν : Type} (m : List (String × ν)) (k k2 : String)
    (v : ν) (hne : k ≠ k2) :
    alistGet? (alistSet m k2 v) k = alistGet? m k := by
  have hbeq : (k2 == k) = false := beq_eq_false_iff_ne.mpr (fun h => hne h.symm)
  unfold alistSet
  split
  · unfold alistGet?
    rw [List.find?_map]
    have hfun : ((fun kv => kv.1 == k) ∘ (fun kv => if kv.1 == k2 then (k2, v) else kv))
        = (fun (kv : String × ν) => kv.1 == k) := by
      funext kv
      by_cases h2 : (kv.1 == k2) = true
      · have : kv.1 = k2 := by simpa using h2
        simp [Function.comp, h2, this, hbeq]
      · simp [Function.comp, h2]
    rw [hfun]
    cases hf : m.find? (fun kv => kv.1 == k) with
    | none => rfl
    | some kv =>
      have hp : (kv.1 == k) = true := by
        have := List.find?_some hf
        simpa using this
      have hk1 : kv.1 = k := by simpa using hp
      have h2f : (kv.1 == k2) = false := by
        rw [hk1]
        exact beq_eq_false_iff_ne.mpr hne
      simp [h2f]
      rw [hk1, if_neg hne]
  · unfold alistGet?
    rw [List.find?_append]
    cases hf : m.find? (fun kv => kv.1 == k) with
    | none => simp [hbeq]
    | some kv => simp

/-- C5: for every list of dict records and configured batch size `b`
(effective value), the records partition into `ceil(n/b)` contiguous
batches, each of size `b` except a possibly smaller non-empty last batch,
the flattened output has exactly `n` elements preserving the original
record order (the execution is exactly an order-preserving per-record
map), each result carries its original record's columns (every key the
agent does not add reads back unchanged), and batch_size 2 with 5 records
gives exactly 3 batches of sizes 2, 2, 1. -/
theorem C5_agent_batching
    (cfg : AgentConfig) (now : String) (records : List (List (String × PyValue)))
    {α : Type} (l : List α) (i : Nat) (c : List α)
    (r : List (String × PyValue)) (k : String) :
    (agentExecute cfg now (.list (records.map PyValue.dict))
      = .ok (records.map (fun r =>
          PyValue.dict (agentMockAlist now r (agentInputOf cfg.input_mapping r)))))
  ∧ ((records.map (fun r =>
          PyValue.dict (agentMockAlist now r (agentInputOf cfg.input_mapping r)))).length
      = records.length)
  ∧ ((agentBatches (effBatchSize cfg.batch_size) l).length
      = (l.length + (effBatchSize cfg.batch_size - 1)) / effBatchSize cfg.batch_size)
  ∧ ((agentBatches (effBatchSize cfg.batch_size) l).flatten = l)
  ∧ (i + 1 < (agentBatches (effBatchSize cfg.batch_size) l).length →
      ((agentBatches (effBatchSize cfg.batch_size) l).getD i []).length
        = effBatchSize cfg.batch_size)
  ∧ (c ∈ agentBatches (effBatchSize cfg.batch_size) l →
      c ≠ [] ∧ c.length ≤ effBatchSize cfg.batch_size)
  ∧ (k ∉ agentKeys →
      alistGet? (agentMockAlist now r (agentInputOf cfg.input_mapping r)) k
        = alistGet? r k)
  ∧ ((agentBatches (effBatchSize (some 2))
        [PyValue.int 1, PyValue.int 2, PyValue.int 3, PyValue.int 4, PyValue.int 5]).map
        List.length = [2, 2, 1]) := by
  have hb : effBatchSize cfg.batch_size - 1 + 1 = effBatchSize cfg.batch_size := by
    have := effBatchSize_pos cfg.batch_size
    omega
  refine ⟨agentExecute_dicts cfg now records, by simp, ?_, ?_, ?_, ?_, ?_, ?_⟩
  · rw [agentBatches, chunksPos_length, hb]
  · rw [agentBatches, chunksPos_flatten]
  · intro h
    rw [agentBatches] at h ⊢
    rw [chunksPos_getD_length _ l i h, hb]
  · intro hc
    rw [agentBatches] at hc
    have := chunksPos_mem _ l c hc
    rwa [hb] at this
  · intro hk
    simp only [agentKeys, List.mem_cons, List.not_mem_nil, or_false, not_or] at hk
    obtain ⟨h1, h2, h3, h4⟩ := hk
    rw [agentMockAlist, alistGet?_alistSet_ne _ _ _ _ h4,
      alistGet?_alistSet_ne _ _ _ _ h3, alistGet?_alistSet_ne _ _ _ _ h2,
      alistGet?_alistSet_ne _ _ _ _ h1]
  · simp [agentBatches, effBatchSize, chunksPos]

/-- Witness for C5: with batch_size 2 and five records the first batch has
exactly the full size 2, and a merged result reads an original column
back unchanged. -/
theorem C5_agent_batching_witness :
    ((agentBatches (effBatchSize (some 2))
        [PyValue.int 1, PyValue.int 2, PyValue.int 3, PyValue.int 4,
         PyValue.int 5]).getD 0 []).length = effBatchSize (some 2)
  ∧ alistGet? (agentMockAlist "T" [("a", PyValue.int 1)]
        (agentInputOf [] [("a", PyValue.int 1)])) "a"
      = alistGet? [("a", PyValue.int 1)] "a" := by
  refine ⟨?_, ?_⟩
  · exact (C5_agent_batching ⟨some 2, Option.none, []⟩ "T" []
      [PyValue.int 1, PyValue.int 2, PyValue.int 3, PyValue.int 4, PyValue.int 5]
      0 [] [] "a").2.2.2.2.1 (by simp [agentBatches, chunksPos, effBatchSize])
  · exact (C5_agent_batching ⟨some 2, Option.none, []⟩ "T" []
      ([] : List PyValue) 0 [] [("a", PyValue.int 1)] "a").2.2.2.2.2.2.1 (by decide)

/-- C9 counterexample: the falsy non-list inputs `None`, `{}` and `""`
make `AgentNode.execute` return `[]` instead of raising — the claim that
every non-list input raises is false. -/
theorem C9_falsy_nonlist_counterexample :
    agentExecute ⟨Option.none, Option.none, []⟩ "T" PyValue.none = .ok []
  ∧ agentExecute ⟨Option.none, Option.none, []⟩ "T" (PyValue.dict []) = .ok []
  ∧ agentExecute ⟨Option.none, Option.none, []⟩ "T" (PyValue.str "") = .ok [] :=
  ⟨rfl, rfl, rfl⟩

/-- C9 (amended): every truthy input that is not a list raises the
list-of-records `ValueError`; every falsy input (including `None` and
empty containers) returns `[]` without error; every truthy list input
proceeds with mapping and batching. -/
theorem C9_amended_input_typing (cfg : AgentConfig) (now : String) (v : PyValue) :
    (v.isTruthy = true → (∀ xs, v ≠ PyValue.list xs) →
      agentExecute cfg now v
        = .error "Agent node expects input_data to be a list of records")
  ∧ (v.isTruthy = false → agentExecute cfg now v = .ok [])
  ∧ (∀ xs, v = PyValue.list xs → v.isTruthy = true →
      agentExecute cfg now v
        = (do
            let mapped ← mapRecords cfg.input_mapping xs
            processBatches now (agentBatches (effBatchSize cfg.batch_size) mapped))) := by
  refine ⟨?_, ?_, ?_⟩
  · intro htr hnl
    cases v with
    | list xs => exact absurd rfl (hnl xs)
    | none => simp [PyValue.isTruthy] at htr
    | bool b => simp [agentExecute, htr]
    | int n => simp [agentExecute, htr]
    | float q => simp [agentExecute, htr]
    | str s => simp [agentExecute, htr]
    | dict kvs => simp [agentExecute, htr]
  · intro hf
    simp [agentExecute, hf]
  · rintro xs rfl htr
    simp [agentExecute, htr]

/-- Witness for the amended C9: a non-empty string input raises the
list-of-records error. -/
theorem C9_amended_input_typing_witness :
    agentExecute ⟨Option.none, Option.none, []⟩ "T" (PyValue.str "x")
      = .error "Agent node expects input_data to be a list of records" :=
  (C9_amended_input_typing ⟨Option.none, Option.none, []⟩ "T" (PyValue.str "x")).1
    (by decide) (fun xs h => PyValue.noConfusion h)

deriving instance DecidableEq for Except

/-! ## Conditional, Filter and Factory
Embeddings of `ConditionalNode.validate/execute`
(src/workflows/execution/node_handlers/conditional.py),
`FilterNode.validate/execute`
(src/workflows/execution/node_handlers/filter.py) and
`NodeFactory.create_node`
(src/workflows/execution/node_handlers/factory.py). -/

/-- Truthiness of `config.get(k)` (`None` when absent is falsy). -/
def getTruthy (cfg : List (String × PyValue)) (k : String) : Bool :=
  match alistGet? cfg k with
  | some v => v.isTruthy
  | Option.none => false

/-- The `valid_types` list of `ConditionalNode.validate`. -/
def conditionalValidTypes : List String := ["expression", "field_value", "record_count"]

/-- `condition_type in valid_types` (Python membership by equality). -/
def condTypeValid (cfg : List (String × PyValue)) : Bool :=
  match alistGet? cfg "condition_type" with
  | some v => conditionalValidTypes.any (fun s => v == .str s)
  | Option.none => false

/-- `ConditionalNode.validate`. -/
def conditionalValidate (cfg : List (String × PyValue)) : Except String Bool :=
  if !(getTruthy cfg "condition") then .error "condition is required"
  else if !(getTruthy cfg "condition_type") then .error "condition_type is required"
  else if condTypeValid cfg then .ok true
  else .error "Invalid condition_type. Must be one of: ['expression', 'field_value', 'record_count']"

/-- The dict returned by `ConditionalNode.execute` (the mocked evaluation
always yields `condition_result=True`, `output_path='true'`). -/
def conditionExecAlist (cfg : List (String × PyValue)) (input : PyValue) :
    List (String × PyValue) :=
  [("condition_result", .bool true),
   ("output_path", .str "true"),
   ("data", input),
   ("condition", (alistGet? cfg "condition").getD PyValue.none),
   ("message", .str "Mock: Condition evaluated to True")]

/-- `ConditionalNode.execute`: a total function — no code path raises. -/
def conditionalExecute (cfg : List (String × PyValue)) (input : PyValue) : PyValue :=
  .dict (conditionExecAlist cfg input)

/-- C6: for every conditional configuration passing `validate`,
`execute(input)` returns an object with a boolean `condition_result`, an
`output_path` that is exactly `"true"` or `"false"`, and the input data;
`execute` is total (no exception escapes the node boundary), so the
error-degradation clause holds vacuously — the mocked evaluation cannot
raise a condition-evaluation error. -/
theorem C6_conditional_always_yields_path (cfg : List (String × PyValue))
    (input : PyValue) (hv : conditionalValidate cfg = .ok true) :
    (∃ b : Bool,
      alistGet? (conditionExecAlist cfg input) "condition_result" = some (.bool b))
  ∧ (alistGet? (conditionExecAlist cfg input) "output_path" = some (.str "true")
      ∨ alistGet? (conditionExecAlist cfg input) "output_path" = some (.str "false"))
  ∧ alistGet? (conditionExecAlist cfg input) "data" = some input
  ∧ conditionalExecute cfg input = .dict (conditionExecAlist cfg input) :=
  ⟨⟨true, rfl⟩, Or.inl rfl, rfl, rfl⟩

/-- Witness for C6 at a concrete validated configuration and input. -/
theorem C6_conditional_always_yields_path_witness :
    alistGet? (conditionExecAlist [("condition", PyValue.str "len(input) > 0"),
        ("condition_type", PyValue.str "record_count")] (PyValue.int 7)) "data"
      = some (PyValue.int 7) :=
  (C6_conditional_always_yields_path
    [("condition", PyValue.str "len(input) > 0"),
     ("condition_type", PyValue.str "record_count")]
    (PyValue.int 7) (by decide)).2.2.1

/-- `FilterNode.validate`. -/
def filterValidate (cfg : List (String × PyValue)) : Except String Bool :=
  if !(getTruthy cfg "conditions") then .error "conditions is required"
  else if !(getTruthy cfg "operator") then .error "operator is required"
  else .ok true

/-- `FilterNode.execute`: the source's stand-in body — non-list input is
returned unchanged; a list of more than one record is cut to its first
half (`input_data[:len(input_data)//2]`); the configured conditions and
operator are never read. -/
def filterExecute (cfg : List (String × PyValue)) (input : PyValue) : PyValue :=
  match input with
  | .list xs => if xs.length > 1 then .list (xs.take (xs.length / 2)) else .list xs
  | v => v

/-- A valid filter configuration: one equality condition under `OR`. -/
def filterCfgEx : List (String × PyValue) :=
  [("conditions",
      PyValue.list [PyValue.dict [("field", PyValue.str "a"),
        ("operator", PyValue.str "=="), ("value", PyValue.int 1)]]),
   ("operator", PyValue.str "OR")]

/-- C7: the filter claim fails on the code — with a single condition
`a == 1` under `OR` and two records both satisfying it, `execute` returns
only the first record (the first half of the input), not both matching
records; the conditions are ignored entirely, contradicting the
docstring's "Filtered array matching conditions". -/
theorem C7_filter_returns_half_not_matches :
    filterValidate filterCfgEx = .ok true
  ∧ filterExecute filterCfgEx
      (PyValue.list [PyValue.dict [("a", PyValue.int 1)],
        PyValue.dict [("a", PyValue.int 1)]])
      = PyValue.list [PyValue.dict [("a", PyValue.int 1)]]
  ∧ filterExecute filterCfgEx
      (PyValue.list [PyValue.dict [("a", PyValue.int 1)],
        PyValue.dict [("a", PyValue.int 1)]])
      ≠ PyValue.list [PyValue.dict [("a", PyValue.int 1)],
        PyValue.dict [("a", PyValue.int 1)]] := by
  refine ⟨by decide, by decide, by decide⟩

/-- The six registered handler classes. -/
inductive NodeClass where
  | databaseH | agentH | outputH | filterH | scriptH | conditionalH
deriving DecidableEq, Repr

/-- `NodeFactory.register_node_types`: the registry populated at import. -/
def defaultRegistry : List (String × NodeClass) :=
  [("database", .databaseH), ("agent", .agentH), ("output", .outputH),
   ("filter", .filterH), ("script", .scriptH), ("conditional", .conditionalH)]

/-- The handler instance `create_node` builds: the chosen class plus the
constructor arguments it is given. -/
structure NodeInstance where
  cls : NodeClass
  node_id : Int
  node_type : String
  configuration : List (String × PyValue)
  workflow_id : Int
  execution_id : Int
  position : Int
deriving DecidableEq, Repr

/-- `if not cls.NODE_REGISTRY: cls.register_node_types()`. -/
def effRegistry (registry : List (String × NodeClass)) : List (String × NodeClass) :=
  if registry.isEmpty then defaultRegistry else registry

/-- `NodeFactory.create_node`: look the type up in the registry; unknown
types raise a `ValueError` naming the requested type and joining the
registered type names; registered types instantiate the mapped class. -/
def create_node (registry : List (String × NodeClass)) (node_id : Int)
    (node_type : String) (configuration : List (String × PyValue))
    (workflow_id execution_id position : Int) : Except String NodeInstance :=
  match alistGet? (effRegistry registry) node_type with
  | some c =>
      .ok ⟨c, node_id, node_type, configuration, workflow_id, execution_id, position⟩
  | Option.none =>
      .error ("Unknown node type: '" ++ node_type ++ "'. Available types: "
        ++ String.intercalate ", " ((effRegistry registry).map (fun kv => kv.1)))

/-- C8: for every type string absent from the registry, `create_node`
raises a configuration error naming the requested type and enumerating
the currently registered type names, never falling back to a default
handler; for every registered type it returns an instance of the mapped
handler class; `create_node("bogus", …)` on the default registry raises
the error listing all six registered types. -/
theorem C8_factory_unknown_type (registry : List (String × NodeClass)) (node_id : Int)
    (t : String) (cfgv : List (String × PyValue)) (wf ex pos : Int) :
    (alistGet? (effRegistry registry) t = Option.none →
      create_node registry node_id t cfgv wf ex pos
        = .error ("Unknown node type: '" ++ t ++ "'. Available types: "
            ++ String.intercalate ", " ((effRegistry registry).map (fun kv => kv.1))))
  ∧ (∀ c, alistGet? (effRegistry registry) t = some c →
      create_node registry node_id t cfgv wf ex pos
        = .ok ⟨c, node_id, t, cfgv, wf, ex, pos⟩)
  ∧ create_node [] 1 "bogus" [] 0 0 0
      = .error "Unknown node type: 'bogus'. Available types: database, agent, output, filter, script, conditional" := by
  refine ⟨?_, ?_, by decide⟩
  · intro h
    unfold create_node
    rw [h]
  · intro c h
    unfold create_node
    rw [h]

/-- Witness for C8: the unknown type "bogus" errors with the full type
list, and the registered type "agent" builds an `AgentNode` instance. -/
theorem C8_factory_unknown_type_witness :
    create_node [] 7 "bogus" [] 1 0 2
      = .error "Unknown node type: 'bogus'. Available types: database, agent, output, filter, script, conditional"
  ∧ create_node [] 7 "agent" [] 1 0 2
      = .ok ⟨NodeClass.agentH, 7, "agent", [], 1, 0, 2⟩ := by
  refine ⟨?_, ?_⟩
  · exact (C8_factory_unknown_type [] 7 "bogus" [] 1 0 2).1 (by decide)
  · exact (C8_factory_unknown_type [] 7 "agent" [] 1 0 2).2.1 NodeClass.agentH (by decide)

/-! ## Single-node DAG resolution
Embedding of the single-node execution path of `WorkflowViewSet.execute`
(src/workflows/views.py lines 103-258): visual-id ↔ durable-id
correlation, upstream-edge scan, upstream `run()` calls, agent unwrapping,
and target execution. Handler behaviour is a parameter
(`NodeBehavior`, standing for `NodeFactory.create_node(...).run(...)`);
the returned trace lists every `run()` invocation as
`(durable node id, input passed)` in call order. -/

/-- A node of `workflow.configuration['nodes']`. -/
structure VisualNode where
  id : String
  vtype : String
  config : List (String × PyValue)

/-- An edge of `workflow.configuration['edges']`. -/
structure WfEdge where
  source : String
  target : String

/-- An active `WorkflowNode` row (durable identity). -/
structure DbNode where
  id : Int
  node_type : String
  configuration : List (String × PyValue)
  position : Int

/-- The inner correlation test of views.py lines 133-154: same type, then
the type-specific key field (`credential_id` / `agent_id` / `table_name`;
`.get` of a missing key yields `None` and `None == None` holds), with
filter/script/conditional matched positionally (first type match). -/
def matchNode (v : VisualNode) (d : DbNode) : Bool :=
  if d.node_type != v.vtype then false
  else if v.vtype == "database" then
    alistGet? v.config "credential_id" == alistGet? d.configuration "credential_id"
  else if v.vtype == "agent" then
    alistGet? v.config "agent_id" == alistGet? d.configuration "agent_id"
  else if v.vtype == "output" then
    alistGet? v.config "table_name" == alistGet? d.configuration "table_name"
  else if v.vtype == "filter" || v.vtype == "script" || v.vtype == "conditional" then
    true
  else false

/-- The correlation loop building `visual_to_db_map` and
`db_to_visual_map` (db nodes scanned in position order, first match
wins, later visual nodes may overwrite earlier dict entries). -/
def buildMaps (vnodes : List VisualNode) (dnodes : List DbNode) :
    List (String × Int) × List (Int × String) :=
  vnodes.foldl
    (fun maps v =>
      match dnodes.find? (fun d => matchNode v d) with
      | some d => (alistSet maps.1 v.id d.id, alistSetInt maps.2 d.id v.id)
      | Option.none => maps)
    ([], [])

/-- views.py lines 219-225: agent targets with at least one collected
producer get `list(upstream_results.values())[0]`; every other case gets
the full `{producer_visual_id: output}` dict. -/
def selectInput (node_type : String) (ur : List (String × PyValue)) : PyValue :=
  match ur with
  | [] => .dict []
  | (k, v) :: rest => if node_type == "agent" then v else .dict ((k, v) :: rest)

/-- `processor_node_types` (views.py line 111). -/
def processorTypes : List String := ["agent", "filter", "script", "conditional", "output"]

/-- The behaviour of `NodeFactory.create_node(node).run(input)` for a
durable node: `(id, node_type, configuration, input) ↦ result`. -/
def NodeBehavior : Type :=
  Int → String → List (String × PyValue) → PyValue → Except String PyValue

/-- The upstream loop (views.py lines 179-217): for each inbound edge,
translate the source visual id (skip when unmapped), fetch the source row
(skip when missing — the caught `DoesNotExist`), then `run()` the source
WITH NO INPUT; any error from the source run propagates to the outer
handler. The trace records each source invocation. -/
def runUpstream (behavior : NodeBehavior) (dnodes : List DbNode)
    (v2d : List (String × Int)) :
    List WfEdge → List (Int × PyValue) → List (String × PyValue) →
    List (Int × PyValue) × Except String (List (String × PyValue))
  | [], tr, res => (tr, .ok res)
  | e :: rest, tr, res =>
    match alistGet? v2d e.source with
    | Option.none => runUpstream behavior dnodes v2d rest tr res
    | some sid =>
      match dnodes.find? (fun d => d.id == sid) with
      | Option.none => runUpstream behavior dnodes v2d rest tr res
      | some snode =>
        match behavior snode.id snode.node_type snode.configuration PyValue.none with
        | .error msg => (tr ++ [(sid, PyValue.none)], .error msg)
        | .ok out =>
            runUpstream behavior dnodes v2d rest (tr ++ [(sid, PyValue.none)])
              (alistSet res e.source out)

/-- The single-node execution path of `WorkflowViewSet.execute`: find the
target row, determine whether it needs input, collect and run the direct
producers (one level — `run()` performs no resolution of its own), select
the input, run the target. -/
def executeNode (behavior : NodeBehavior) (vnodes : List VisualNode)
    (edges : List WfEdge) (dnodes : List DbNode) (target_id : Int) :
    List (Int × PyValue) × Except String PyValue :=
  match dnodes.find? (fun d => d.id == target_id) with
  | Option.none => ([], .error ("Node with id " ++ toString target_id ++ " not found"))
  | some wnode =>
    let maps := buildMaps vnodes dnodes
    let upstream :=
      if processorTypes.contains wnode.node_type then
        match alistGetInt? maps.2 target_id with
        | some tv => edges.filter (fun e => e.target == tv)
        | Option.none => []
      else []
    if upstream.isEmpty then
      match behavior wnode.id wnode.node_type wnode.configuration PyValue.none with
      | .ok out => ([(target_id, PyValue.none)], .ok out)
      | .error msg => ([(target_id, PyValue.none)], .error msg)
    else
      match runUpstream behavior dnodes maps.1 upstream [] [] with
      | (tr, .error msg) => (tr, .error msg)
      | (tr, .ok ur) =>
        let input := selectInput wnode.node_type ur
        match behavior wnode.id wnode.node_type wnode.configuration input with
        | .ok out => (tr ++ [(target_id, input)], .ok out)
        | .error msg => (tr ++ [(target_id, input)], .error msg)

/-- The three-node chain Database→Agent→Output of the claim: visual
nodes. -/
def chainVNodes : List VisualNode :=
  [⟨"node_1", "database", [("credential_id", .int 1), ("query", .str "SELECT * FROM t")]⟩,
   ⟨"node_2", "agent", [("agent_id", .int 7), ("llm_credential_id", .int 2)]⟩,
   ⟨"node_3", "output", [("output_type", .str "database"), ("table_name", .str "results")]⟩]

/-- Edges Database→Agent and Agent→Output. -/
def chainEdges : List WfEdge := [⟨"node_1", "node_2"⟩, ⟨"node_2", "node_3"⟩]

/-- The persisted rows of the chain (durable ids 1, 2, 3). -/
def chainDNodes : List DbNode :=
  [⟨1, "database", [("credential_id", .int 1), ("query", .str "SELECT * FROM t")], 0⟩,
   ⟨2, "agent", [("agent_id", .int 7), ("llm_credential_id", .int 2)], 1⟩,
   ⟨3, "output", [("output_type", .str "database"), ("table_name", .str "results")], 2⟩]

/-- What the Database node would produce if it ran. -/
def dbRows : PyValue := .list [.dict [("a", .int 1)], .dict [("a", .int 2)]]

/-- Concrete handler behaviour for the chain: the database returns its
rows, agent and output echo the input they were given. -/
def chainBehavior : NodeBehavior := fun nid _ _ input =>
  if nid == 1 then .ok dbRows
  else if nid == 2 then .ok (.dict [("agent_saw", input)])
  else .ok (.dict [("output_saw", input)])

/-- C1: evaluating the resolver on the Database→Agent→Output chain at the
Output node shows the claim fails on the code: only the Agent (id 2) and
the Output (id 3) are ever run — the Database node (id 1) is executed
zero times, and the Agent runs with input `None`, not the Database's raw
output list, because `source_instance.run()` is invoked with no argument
and `BaseNode.run` performs no upstream resolution, contrary to the
comment "recursively handles its upstream if needed". -/
theorem C1_chain_database_never_runs :
    (executeNode chainBehavior chainVNodes chainEdges chainDNodes 3).1
      = [(2, PyValue.none),
         (3, PyValue.dict [("node_2", PyValue.dict [("agent_saw", PyValue.none)])])]
  ∧ ((executeNode chainBehavior chainVNodes chainEdges chainDNodes 3).1.map
      Prod.fst).count 1 = 0
  ∧ chainBehavior 1 "database" [] PyValue.none = .ok dbRows
  ∧ PyValue.none ≠ dbRows := by
  refine ⟨by decide, by decide, by decide, by decide⟩

/-- C3 counterexample: a `filter` target with exactly one producer
receives the full `{producer_id: output}` map, not the unwrapped raw
output; and an `agent` target with two producers receives the first
producer's raw output, not the full map — both contradict the claim. -/
theorem C3_single_producer_counterexample :
    selectInput "filter" [("node_1", dbRows)] = PyValue.dict [("node_1", dbRows)]
  ∧ PyValue.dict [("node_1", dbRows)] ≠ dbRows
  ∧ selectInput "agent" [("node_1", dbRows), ("node_2", PyValue.list [])] = dbRows
  ∧ dbRows ≠ PyValue.dict [("node_1", dbRows), ("node_2", PyValue.list [])] := by
  refine ⟨by decide, by decide, by decide, by decide⟩

/-- C3 (amended): only an `agent` target with at least one collected
producer gets an unwrapped value — the first producer's output in
collection order, regardless of producer count; every other target type,
and any target with zero collected producers, receives the full
`{producer_id: output}` map. -/
theorem C3_amended_unwrap_only_agent (k : String) (v : PyValue)
    (rest : List (String × PyValue)) (t : String) (ur : List (String × PyValue)) :
    selectInput "agent" ((k, v) :: rest) = v
  ∧ (t ≠ "agent" → selectInput t ur = .dict ur)
  ∧ selectInput t [] = PyValue.dict [] := by
  refine ⟨rfl, ?_, rfl⟩
  · intro hne
    cases ur with
    | nil => rfl
    | cons p rest2 =>
      cases p with
      | mk k2 v2 =>
        simp only [selectInput]
        rw [if_neg]
        simp [hne]

/-- Witness for the amended C3: a single-producer agent unwraps, a
single-producer script gets the map. -/
theorem C3_amended_unwrap_only_agent_witness :
    selectInput "agent" [("node_1", dbRows)] = dbRows
  ∧ selectInput "script" [("node_1", dbRows)] = PyValue.dict [("node_1", dbRows)] := by
  refine ⟨?_, ?_⟩
  · exact (C3_amended_unwrap_only_agent "node_1" dbRows [] "x" []).1
  · exact (C3_amended_unwrap_only_agent "node_1" dbRows [] "script"
      [("node_1", dbRows)]).2.1 (by decide)
